import Mathlib

/-!
Verification development for the markdown scaffolder (`scaffold.py`).

The program has two algorithmic components:
* `extract_artifacts_from_markdown` — a line scanner that recovers a mapping
  from file path to fenced code content out of a markdown-like document;
* the per-file content-resolution step of `create_project_from_yaml` — direct
  and boundary-safe suffix matching against the artifact mapping, with
  fallbacks to inline YAML content, a template file, and finally empty content.

The embedding below models documents as lists of raw lines (each line keeps
its own trailing newline, mirroring Python `readlines`), the artifact mapping
as an insertion-ordered association list (mirroring Python `dict` insertion
order and in-place value update), and the filesystem reads the program
performs as explicit oracle arguments.
-/

/-- Python `str.strip` whitespace test, for the ASCII whitespace characters
(space, tab, newline, carriage return, vertical tab, form feed). -/
def pyWs (c : Char) : Bool :=
  c = ' ' || c = '\t' || c = '\n' || c = '\r' || c = '\x0b' || c = '\x0c'

/-- Strip `pyWs` characters from both ends of a character list. -/
def stripL (l : List Char) : List Char :=
  ((l.dropWhile pyWs).reverse.dropWhile pyWs).reverse

/-- Python `str.strip()` on a string (`lines[i].strip()` in the scanner). -/
def pyStrip (s : String) : String :=
  String.mk (stripL s.data)

/-- Python `s.split(sep)[0]`: the characters before the first occurrence of
`sep` as a contiguous sublist (the whole list when `sep` does not occur). -/
def beforeFirst : List Char → List Char → List Char
  | [], _ => []
  | c :: cs, sep => if sep.isPrefixOf (c :: cs) then [] else c :: beforeFirst cs sep

/-- The header regex `FILE_PATH_PATTERN = ^\*\*([^*]+?)\*\*` applied with
`re.match`: the line must begin with `**`, followed by a nonempty run of
non-asterisk characters, followed immediately by `**`; the captured group is
that run. Anything may follow the closing `**`. -/
def headerMatchL (l : List Char) : Option (List Char) :=
  if ('*' :: '*' :: []).isPrefixOf l then
    let rest := l.drop 2
    let t := rest.takeWhile (fun c => c != '*')
    if t.isEmpty then none
    else if ('*' :: '*' :: []).isPrefixOf (rest.drop t.length) then some t
    else none
  else none

/-- `FILE_PATH_PATTERN.match(line)` on an (already stripped) line, returning
`group(1)`. -/
def headerMatch (s : String) : Option String :=
  (headerMatchL s.data).map String.mk

/-- The characters of a triple-backtick fence marker. -/
def fenceData : List Char :=
  "```".data

/-- Both fence tests of the scanner reduce to this: the opening test
`CODE_BLOCK_PATTERN.match(code_line)` (pattern `^```(\w*)`, whose group may be
empty) and the closing test `lines[k].strip().startswith('```')` each hold
exactly when the stripped line begins with three backticks. -/
def isFence (s : String) : Bool :=
  fenceData.isPrefixOf (stripL s.data)

/-- Header post-processing (`scaffold.py` lines 60-64): strip a trailing
version segment by splitting on the bullet-operator character and taking the
first part trimmed, then drop a human-readable description by splitting on
the literal sequence space-hyphen-space and taking the first part trimmed. -/
def pathOf (raw : String) : String :=
  let header_text := pyStrip (String.mk (beforeFirst raw.data "∙".data))
  pyStrip (String.mk (beforeFirst header_text.data " - ".data))

/-- Validity heuristic (`scaffold.py` line 70): the candidate must contain a
dot, a forward slash, or a backslash. -/
def isValidPath (s : String) : Bool :=
  s.data.any (fun c => c = '.' || c = '/' || c = '\\')

/-- `file_path_str.replace('\\', '/')` — replace every backslash by a
forward slash. -/
def replaceBS (s : String) : String :=
  String.mk (s.data.map (fun c => if c = '\\' then '/' else c))

/-- `"".join(code_content)` — concatenation of the collected raw lines
(each raw line still carries its own newline, so this is the verbatim
newline-joined fence content). -/
def joinLines (ls : List String) : String :=
  String.join ls

/-- Python `str.endswith` (used by the suffix-match step). -/
def endsL (s p : String) : Bool :=
  p.data.isSuffixOf s.data

/-- Python `dict` assignment `d[k] = v`: update the value in place when the
key is present (keeping its original position in insertion order), append a
new binding otherwise. -/
def dictInsert : List (String × String) → String → String → List (String × String)
  | [], k, v => [(k, v)]
  | kv :: rest, k, v => if kv.1 = k then (k, v) :: rest else kv :: dictInsert rest k v

/-- Python `d[k]` / `k in d` lookup on the association list. -/
def dictLookup : List (String × String) → String → Option String
  | [], _ => none
  | kv :: rest, k => if kv.1 = k then some kv.2 else dictLookup rest k

/-- The fence-content collection loop (`scaffold.py` lines 89-93): consume
raw lines until one whose stripped form begins with three backticks (the
closing fence, itself not collected); return the collected lines and the
lines after the closing fence.  When no closing fence exists, every
remaining line is collected and nothing remains. -/
def collectCode : List String → List String × List String
  | [] => ([], [])
  | l :: ls =>
    if isFence l then ([], ls)
    else
      let r := collectCode ls
      (l :: r.1, r.2)

/-- The inner search loop (`scaffold.py` lines 81-111): scan forward from the
line after the header for a fence start; abort (`none`) when another
header-candidate line is met first or the document ends; on a fence start,
collect the fence content. The fence test is made before the header test on
each line, exactly as in the source. -/
def findFence : List String → Option (List String × List String)
  | [] => none
  | l :: ls =>
    if isFence l then some (collectCode ls)
    else if (headerMatch (pyStrip l)).isSome then none
    else findFence ls

theorem collectCode_length_le (ls : List String) : (collectCode ls).2.length ≤ ls.length := by
  induction ls with
  | nil => simp [collectCode]
  | cons l ls ih =>
      simp only [collectCode]
      split
      · simp
      · simpa using Nat.le_succ_of_le ih

theorem findFence_length {ls : List String} {c r : List String}
    (h : findFence ls = some (c, r)) : r.length < ls.length := by
  induction ls with
  | nil => simp [findFence] at h
  | cons l ls ih =>
      simp only [findFence] at h
      split at h
      · have h3 : collectCode ls = (c, r) := Option.some.inj h
        have h2 : r.length ≤ ls.length := by
          have h4 : (collectCode ls).2 = r := by rw [h3]
          rw [← h4]; exact collectCode_length_le ls
        simp only [List.length_cons]
        omega
      · split at h
        · exact absurd h (by simp)
        · have := ih h
          simp only [List.length_cons]
          omega

/-- The outer scanning loop (`scaffold.py` lines 46-115) over the raw lines,
with the artifact dictionary as accumulator.  A non-header line is skipped;
a header whose candidate path fails the validity heuristic advances one line;
a valid header looks for its fence: on success the normalized path is
inserted (last-one-wins) and the scan resumes right after the closing fence,
on failure the scan resumes at the line after the header. -/
def scan (lines : List String) (acc : List (String × String)) : List (String × String) :=
  match lines with
  | [] => acc
  | l :: ls =>
    match headerMatch (pyStrip l) with
    | none => scan ls acc
    | some raw =>
      if isValidPath (pathOf raw) then
        match hf : findFence ls with
        | some (content, rest) =>
            scan rest (dictInsert acc (replaceBS (pathOf raw)) (joinLines content))
        | none => scan ls acc
      else scan ls acc
  termination_by lines.length
  decreasing_by
  all_goals simp only [List.length_cons]
  all_goals first
    | omega
    | (have hfl := findFence_length hf; omega)

/-- Outcome of opening and reading the source document (the `try` block at
`scaffold.py` lines 36-44): the list of raw lines, or a file-not-found
failure, or any other read failure. -/
inductive DocRead where
  | ok (lines : List String)
  | notFound
  | readError
deriving DecidableEq

/-- `extract_artifacts_from_markdown` (`scaffold.py` lines 19-119): on a
readable document, run the scanner starting from an empty mapping; on either
read failure, return the empty mapping together with a non-fatal diagnostic
message (the `print` calls of the two `except` arms) instead of raising. -/
def extract_artifacts_from_markdown : DocRead → List (String × String) × List String
  | .ok lines => (scan lines [], [])
  | .notFound => ([], ["Error: Markdown file not found"])
  | .readError => ([], ["Error reading Markdown file"])

/-- Outcome of opening and reading a template file (the `try` block at
`scaffold.py` lines 218-226): its content, or a file-not-found failure, or
any other read failure. -/
inductive TemplateRead where
  | found (s : String)
  | notFound
  | readError
deriving DecidableEq

/-- A declared `file` node of the YAML structure, as the per-file step sees
it: the optional `content` entry (inline literal) and the optional
`template` entry (path of a template file relative to the tree root). -/
structure FileItem where
  inlineContent : Option String
  templateRef : Option String
deriving DecidableEq

/-- The per-file resolution outcome: the Python `content` variable (`none`
models Python `None`) and the Python `source` string. -/
structure Resolved where
  content : Option String
  source : String
deriving DecidableEq

/-- The suffix-match loop (`scaffold.py` lines 194-207): iterate over the
artifact keys in insertion order and take the first key `K` such that the
declared path ends with `K` and either equals `K` or ends with `/` followed
by `K`; keys failing the boundary check are passed over without stopping the
loop. -/
def suffixMatch (artifacts : List (String × String)) (r : String) :
    Option (String × String) :=
  artifacts.find? (fun kv => endsL r kv.1 && (r == kv.1 || endsL r ("/" ++ kv.1)))

/-- The artifact-lookup phase (`scaffold.py` lines 182-209): a direct
dictionary lookup first, then the suffix-match loop; the second component is
the Python `source` string recorded for the match. -/
def artifactLookup (artifacts : List (String × String)) (r : String) :
    Option (String × String) :=
  match dictLookup artifacts r with
  | some c => some (c, "artifact")
  | none =>
    match suffixMatch artifacts r with
    | some kv => some (kv.2, "artifact (matched on " ++ kv.1 ++ ")")
    | none => none

/-- The content-resolution chain for one declared file (`scaffold.py` lines
175-226): `content` starts as `None` and `source` as `"empty"`; an artifact
match (direct or suffix) fills both; otherwise inline YAML content, then the
template file.  A template that is absent sets `source` to
`"template (not found)"` while leaving `content` as `None`; any other
template read error leaves both `content` and `source` unchanged. -/
def resolveContent (artifacts : List (String × String)) (r : String)
    (item : FileItem) (readTemplate : String → TemplateRead) : Resolved :=
  match artifactLookup artifacts r with
  | some cs => { content := some cs.1, source := cs.2 }
  | none =>
    match item.inlineContent with
    | some c => { content := some c, source := "YAML content" }
    | none =>
      match item.templateRef with
      | some t =>
        match readTemplate t with
        | .found s => { content := some s, source := "template " ++ t }
        | .notFound => { content := none, source := "template (not found)" }
        | .readError => { content := none, source := "empty" }
      | none => { content := none, source := "empty" }

/-- The full per-file step of `create_project_from_yaml` (`scaffold.py`
lines 167-235): the declared file's relative path is normalized to forward
slashes before any lookup, the content chain runs, and the normalized path
is appended to the `empty_files` list exactly when the recorded source is
still the string `"empty"`.  Returns the resolution outcome and the updated
`empty_files` list. -/
def create_project_file_step (artifacts : List (String × String))
    (readTemplate : String → TemplateRead) (rawRel : String) (item : FileItem)
    (empty_files : List String) : Resolved × List String :=
  let r := replaceBS rawRel
  let res := resolveContent artifacts r item readTemplate
  (res, if res.source = "empty" then empty_files ++ [r] else empty_files)

/-- The string actually written for a resolved file (`scaffold.py` lines
233-235): `f.write(content)` runs only when `content` is truthy, so a `None`
content (and likewise an empty string) yields a zero-length file. -/
def writtenContent (res : Resolved) : String :=
  match res.content with
  | some c => c
  | none => ""

/-! ### Basic facts about the scanner's building blocks -/

theorem isPrefixOf_trans_len : ∀ (t a b : List Char), a.isPrefixOf t = true →
    b.isPrefixOf t = true → a.length ≤ b.length → a.isPrefixOf b = true
  | _, [], _, _, _, _ => by simp [List.isPrefixOf]
  | _, _ :: _, [], _, _, hl => by simp at hl
  | [], _ :: _, _ :: _, ha, _, _ => by simp [List.isPrefixOf] at ha
  | z :: zs, x :: xs, y :: ys, ha, hb, hl => by
      simp only [List.isPrefixOf, Bool.and_eq_true, beq_iff_eq] at ha hb ⊢
      refine ⟨ha.1.trans hb.1.symm, ?_⟩
      exact isPrefixOf_trans_len zs xs ys ha.2 hb.2 (by simpa using hl)

theorem isPrefixOf_star_not_fence {t : List Char}
    (h1 : (('*' :: '*' :: []).isPrefixOf t) = true) : fenceData.isPrefixOf t = false := by
  cases hb : fenceData.isPrefixOf t
  · rfl
  · have h2 : (('*' :: '*' :: []).isPrefixOf fenceData) = true :=
      isPrefixOf_trans_len t _ _ h1 hb (by decide)
    exact absurd h2 (by decide)

theorem headerMatch_star {s raw : String} (h : headerMatch s = some raw) :
    ('*' :: '*' :: []).isPrefixOf s.data = true := by
  unfold headerMatch headerMatchL at h
  cases hb : ('*' :: '*' :: []).isPrefixOf s.data
  · simp [hb] at h
  · rfl

theorem header_not_fence {l raw : String}
    (h : headerMatch (pyStrip l) = some raw) : isFence l = false := by
  have h1 := headerMatch_star h
  have h2 : (pyStrip l).data = stripL l.data := rfl
  rw [h2] at h1
  unfold isFence
  exact isPrefixOf_star_not_fence h1

/-! ### Unfolding lemmas for the scanning loops -/

theorem collectCode_no_fence {body : List String}
    (h : ∀ l ∈ body, isFence l = false) : collectCode body = (body, []) := by
  induction body with
  | nil => rfl
  | cons l ls ih =>
      have hl : isFence l = false := h l (by simp)
      simp only [collectCode, hl, Bool.false_eq_true, if_false]
      rw [ih (fun x hx => h x (by simp [hx]))]

theorem collectCode_append {body : List String} {close : String} (rest : List String)
    (hbody : ∀ l ∈ body, isFence l = false) (hclose : isFence close = true) :
    collectCode (body ++ close :: rest) = (body, rest) := by
  induction body with
  | nil => simp [collectCode, hclose]
  | cons l ls ih =>
      have hl : isFence l = false := hbody l (by simp)
      simp only [List.cons_append, collectCode, hl, Bool.false_eq_true, if_false,
        List.append_eq]
      rw [ih (fun x hx => hbody x (by simp [hx]))]

theorem findFence_fence {f : String} (ls : List String) (hf : isFence f = true) :
    findFence (f :: ls) = some (collectCode ls) := by
  simp [findFence, hf]

theorem findFence_skip {l : String} (ls : List String) (h1 : isFence l = false)
    (h2 : headerMatch (pyStrip l) = none) : findFence (l :: ls) = findFence ls := by
  simp [findFence, h1, h2]

theorem findFence_header {l raw : String} (ls : List String)
    (h : headerMatch (pyStrip l) = some raw) : findFence (l :: ls) = none := by
  have h1 := header_not_fence h
  simp [findFence, h1, h]

theorem scan_nil (acc : List (String × String)) : scan [] acc = acc := by
  rw [scan]

theorem scan_no_header {l : String} (ls : List String) (acc : List (String × String))
    (h : headerMatch (pyStrip l) = none) : scan (l :: ls) acc = scan ls acc := by
  rw [scan, h]

theorem scan_invalid {l raw : String} (ls : List String) (acc : List (String × String))
    (h : headerMatch (pyStrip l) = some raw) (hv : isValidPath (pathOf raw) = false) :
    scan (l :: ls) acc = scan ls acc := by
  rw [scan, h]
  simp [hv]

theorem scan_header_fence {l raw : String} {ls content rest : List String}
    (acc : List (String × String))
    (h : headerMatch (pyStrip l) = some raw) (hv : isValidPath (pathOf raw) = true)
    (hf : findFence ls = some (content, rest)) :
    scan (l :: ls) acc
      = scan rest (dictInsert acc (replaceBS (pathOf raw)) (joinLines content)) := by
  rw [scan, h]
  simp only [hv, if_true]
  split
  · rename_i c r heq
    rw [hf] at heq
    cases heq
    rfl
  · rename_i heq
    rw [hf] at heq
    cases heq

theorem scan_header_nofence {l raw : String} (ls : List String)
    (acc : List (String × String))
    (h : headerMatch (pyStrip l) = some raw) (hv : isValidPath (pathOf raw) = true)
    (hf : findFence ls = none) : scan (l :: ls) acc = scan ls acc := by
  rw [scan, h]
  simp only [hv, if_true]
  split
  · rename_i c r heq
    rw [hf] at heq
    cases heq
  · rfl

theorem scan_skip_all {ls : List String} (acc : List (String × String))
    (h : ∀ l ∈ ls, headerMatch (pyStrip l) = none) : scan ls acc = acc := by
  induction ls with
  | nil => exact scan_nil acc
  | cons l ls ih =>
      rw [scan_no_header ls acc (h l (by simp))]
      exact ih (fun x hx => h x (by simp [hx]))

theorem scan_skip_append {mid : List String} (xs : List String)
    (acc : List (String × String))
    (h : ∀ l ∈ mid, headerMatch (pyStrip l) = none) :
    scan (mid ++ xs) acc = scan xs acc := by
  induction mid with
  | nil => rfl
  | cons l ls ih =>
      rw [List.cons_append, scan_no_header _ acc (h l (by simp))]
      exact ih (fun x hx => h x (by simp [hx]))

theorem findFence_none_of {mid rest : List String}
    (hmid : ∀ l ∈ mid, isFence l = false ∧ headerMatch (pyStrip l) = none)
    (hrest : rest = [] ∨ ∃ h2 t raw2, rest = h2 :: t ∧ headerMatch (pyStrip h2) = some raw2) :
    findFence (mid ++ rest) = none := by
  induction mid with
  | nil =>
      rcases hrest with h | ⟨h2, t, raw2, rfl, hh⟩
      · simp [h, findFence]
      · simpa using findFence_header t hh
  | cons l ls ih =>
      rw [List.cons_append,
        findFence_skip _ (hmid l (by simp)).1 (hmid l (by simp)).2]
      exact ih (fun x hx => hmid x (by simp [hx]))

/-! ### Facts about the artifact dictionary -/

theorem dictLookup_insert (d : List (String × String)) (k v : String) :
    dictLookup (dictInsert d k v) k = some v := by
  induction d with
  | nil => simp [dictInsert, dictLookup]
  | cons kv rest ih =>
      simp only [dictInsert]
      split
      · simp [dictLookup]
      · rename_i hne
        simp only [dictLookup, if_neg hne]
        exact ih

/-! ### Facts about path normalization, the artifact keys, and the resolver -/

/-- A string free of backslashes: its only possible path separator is the
forward slash. -/
def noBS (s : String) : Bool :=
  s.data.all (fun c => c != '\\')

theorem replaceBS_noBS (s : String) : noBS (replaceBS s) = true := by
  unfold noBS replaceBS
  rw [show (String.mk (s.data.map (fun c => if c = '\\' then '/' else c))).data
      = s.data.map (fun c => if c = '\\' then '/' else c) from rfl]
  rw [List.all_eq_true]
  intro c hc
  rcases List.mem_map.mp hc with ⟨a, _, rfl⟩
  by_cases h : a = '\\' <;> simp [h]

theorem dictInsert_keys {P : String → Prop} {d : List (String × String)} {k v : String}
    (hd : ∀ kv ∈ d, P kv.1) (hk : P k) :
    ∀ kv ∈ dictInsert d k v, P kv.1 := by
  induction d with
  | nil => simpa [dictInsert] using hk
  | cons x rest ih =>
      simp only [dictInsert]
      split
      · intro kv hkv
        rcases List.mem_cons.mp hkv with rfl | hm
        · exact hk
        · exact hd kv (by simp [hm])
      · intro kv hkv
        rcases List.mem_cons.mp hkv with rfl | hm
        · exact hd kv (by simp)
        · exact ih (fun y hy => hd y (by simp [hy])) kv hm

theorem scan_keys {P : String → Prop} (hP : ∀ s, P (replaceBS s)) :
    ∀ (lines : List String) (acc : List (String × String)),
      (∀ kv ∈ acc, P kv.1) → ∀ kv ∈ scan lines acc, P kv.1 := by
  intro lines acc
  induction lines, acc using scan.induct with
  | case1 acc =>
      intro hacc
      rw [scan_nil]
      exact hacc
  | case2 acc l ls h ih =>
      intro hacc
      rw [scan_no_header ls acc h]
      exact ih hacc
  | case3 acc l ls raw h hv content rest hf ih =>
      intro hacc
      rw [scan_header_fence acc h hv hf]
      exact ih (dictInsert_keys hacc (hP _))
  | case4 acc l ls raw h hv hf ih =>
      intro hacc
      rw [scan_header_nofence ls acc h hv hf]
      exact ih hacc
  | case5 acc l ls raw h hv ih =>
      intro hacc
      rw [scan_invalid ls acc h (by simpa using hv)]
      exact ih hacc

theorem suffixMatch_sound {artifacts : List (String × String)} {r : String}
    {kv : String × String} (h : suffixMatch artifacts r = some kv) :
    endsL r kv.1 = true ∧ (r = kv.1 ∨ endsL r ("/" ++ kv.1) = true) := by
  have h2 := List.find?_some h
  simp only [Bool.and_eq_true, Bool.or_eq_true, beq_iff_eq] at h2
  tauto

theorem artifactLookup_source_ne {artifacts : List (String × String)} {r c src : String}
    (h : artifactLookup artifacts r = some (c, src)) : src ≠ "empty" := by
  unfold artifactLookup at h
  cases hd : dictLookup artifacts r with
  | some v =>
      rw [hd] at h
      cases h
      decide
  | none =>
      rw [hd] at h
      cases hs : suffixMatch artifacts r with
      | none =>
          rw [hs] at h
          cases h
      | some kv =>
          rw [hs] at h
          cases h
          intro he
          have hlen := congrArg String.length he
          rw [String.length_append, String.length_append] at hlen
          have e1 : ("artifact (matched on ").length = 21 := by decide
          have e2 : (")").length = 1 := by decide
          have e3 : ("empty").length = 5 := by decide
          omega

theorem resolveContent_artifact {artifacts : List (String × String)} {r c src : String}
    {item : FileItem} {rt : String → TemplateRead}
    (h : artifactLookup artifacts r = some (c, src)) :
    resolveContent artifacts r item rt = { content := some c, source := src } := by
  unfold resolveContent
  rw [h]

theorem resolveContent_template_missing {artifacts : List (String × String)}
    {r t : String} {item : FileItem} {rt : String → TemplateRead}
    (h : artifactLookup artifacts r = none) (hc : item.inlineContent = none)
    (ht : item.templateRef = some t) (hr : rt t = TemplateRead.notFound) :
    resolveContent artifacts r item rt
      = { content := none, source := "template (not found)" } := by
  simp only [resolveContent, h, hc, ht, hr]

theorem file_step_eq (artifacts : List (String × String)) (rt : String → TemplateRead)
    (rawRel : String) (item : FileItem) (empty_files : List String) :
    create_project_file_step artifacts rt rawRel item empty_files
      = (resolveContent artifacts (replaceBS rawRel) item rt,
         if (resolveContent artifacts (replaceBS rawRel) item rt).source = "empty"
         then empty_files ++ [replaceBS rawRel] else empty_files) := rfl

/-- A template-reading oracle under which every template file is missing. -/
def rtAllMissing : String → TemplateRead := fun _ => TemplateRead.notFound

/-- A template-reading oracle under which every template file reads as
the fixed text `T`. -/
def rtAllFound : String → TemplateRead := fun _ => TemplateRead.found "T"

/-! ### The claims -/

/-- C2: for every matched header whose fence-start line is found, the
recorded artifact content is exactly the raw lines collected verbatim
between the fence-start line and the closing-fence line (each raw line
keeping its own newline, i.e. the newline-joined fence body), and this holds
at any point of the scan with any accumulator; in particular, extracting
from the document `**a/b.txt**` / fence containing exactly `hello\n` yields
the mapping with `a/b.txt` bound to `hello\n`. -/
theorem c2_fence_content_verbatim :
    (∀ (hline fence close : String) (body rest : List String)
        (acc : List (String × String)) (raw : String),
        headerMatch (pyStrip hline) = some raw →
        isValidPath (pathOf raw) = true →
        isFence fence = true →
        (∀ l ∈ body, isFence l = false) →
        isFence close = true →
        scan (hline :: fence :: (body ++ close :: rest)) acc
          = scan rest (dictInsert acc (replaceBS (pathOf raw)) (joinLines body)))
    ∧ extract_artifacts_from_markdown
        (DocRead.ok ["**a/b.txt**\n", "```\n", "hello\n", "```\n"])
        = ([("a/b.txt", "hello\n")], []) := by
  constructor
  · intro hline fence close body rest acc raw hh hv hf hb hc
    have hff : findFence (fence :: (body ++ close :: rest)) = some (body, rest) := by
      rw [findFence_fence _ hf, collectCode_append _ hb hc]
    exact scan_header_fence acc hh hv hff
  · show (scan ["**a/b.txt**\n", "```\n", "hello\n", "```\n"] [], ([] : List String))
        = ([("a/b.txt", "hello\n")], [])
    rw [@scan_header_fence "**a/b.txt**\n" "a/b.txt" ["```\n", "hello\n", "```\n"]
      ["hello\n"] [] [] (by decide) (by decide)
      (show findFence ["```\n", "hello\n", "```\n"] = some (["hello\n"], []) by decide)]
    rw [scan_nil]
    decide

/-- C2 witness: the generic part of `c2_fence_content_verbatim` applied to a
concrete header, fence, one-line body, closing fence and trailing line. -/
theorem c2_fence_content_verbatim_witness :
    scan ["**w.txt**\n", "```\n", "body\n", "```\n", "tail\n"] []
      = scan ["tail\n"]
          (dictInsert [] (replaceBS (pathOf "w.txt")) (joinLines ["body\n"])) := by
  have h := c2_fence_content_verbatim.1 "**w.txt**\n" "```\n" "```\n" ["body\n"] ["tail\n"]
    [] "w.txt" (by decide) (by decide) (by decide) (by decide) (by decide)
  exact h

/-- C4: last-one-wins.  In a document with two valid headers normalizing to
the same path `p`, each followed by a fenced block, with no further
header-candidate lines in between or after, the final mapping's value at `p`
is the content of the later block. -/
theorem c4_last_one_wins :
    ∀ (h1 f1 c1 h2 f2 c2 : String) (b1 b2 mid post : List String)
      (acc : List (String × String)) (raw1 raw2 p : String),
      headerMatch (pyStrip h1) = some raw1 →
      headerMatch (pyStrip h2) = some raw2 →
      isValidPath (pathOf raw1) = true →
      isValidPath (pathOf raw2) = true →
      replaceBS (pathOf raw1) = p →
      replaceBS (pathOf raw2) = p →
      isFence f1 = true → isFence f2 = true →
      isFence c1 = true → isFence c2 = true →
      (∀ l ∈ b1, isFence l = false) →
      (∀ l ∈ b2, isFence l = false) →
      (∀ l ∈ mid, headerMatch (pyStrip l) = none) →
      (∀ l ∈ post, headerMatch (pyStrip l) = none) →
      dictLookup
        (scan (h1 :: f1 :: (b1 ++ c1 :: (mid ++ h2 :: f2 :: (b2 ++ c2 :: post)))) acc) p
        = some (joinLines b2) := by
  intro h1 f1 c1 h2 f2 c2 b1 b2 mid post acc raw1 raw2 p hh1 hh2 hv1 hv2 hp1 hp2
    hf1 hf2 hc1 hc2 hb1 hb2 hmid hpost
  have hff1 : findFence (f1 :: (b1 ++ c1 :: (mid ++ h2 :: f2 :: (b2 ++ c2 :: post))))
      = some (b1, mid ++ h2 :: f2 :: (b2 ++ c2 :: post)) := by
    rw [findFence_fence _ hf1, collectCode_append _ hb1 hc1]
  rw [scan_header_fence acc hh1 hv1 hff1]
  rw [scan_skip_append _ _ hmid]
  have hff2 : findFence (f2 :: (b2 ++ c2 :: post)) = some (b2, post) := by
    rw [findFence_fence _ hf2, collectCode_append _ hb2 hc2]
  rw [scan_header_fence _ hh2 hv2 hff2]
  rw [scan_skip_all _ hpost]
  rw [hp1, hp2]
  exact dictLookup_insert _ p (joinLines b2)

/-- C4 witness: two headers for `p.txt`, each with its own fenced block;
the final value at `p.txt` is the later block's content. -/
theorem c4_last_one_wins_witness :
    dictLookup
      (scan ("**p.txt**\n" :: "```\n" :: (["one\n"] ++ "```\n" ::
        (["mid\n"] ++ "**p.txt**\n" :: "```\n" :: (["two\n"] ++ "```\n" :: [])))) [])
      "p.txt" = some (joinLines ["two\n"]) := by
  exact c4_last_one_wins "**p.txt**\n" "```\n" "```\n" "**p.txt**\n" "```\n" "```\n"
    ["one\n"] ["two\n"] ["mid\n"] [] [] "p.txt" "p.txt" "p.txt"
    (by decide) (by decide) (by decide) (by decide) (by decide) (by decide)
    (by decide) (by decide) (by decide) (by decide) (by decide) (by decide)
    (by decide) (by decide)

/-- C5: a valid header with no fence start before the next header-candidate
line (or the end of the document) contributes no entry, and the outer scan
resumes at the line right after the header with the mapping unchanged. -/
theorem c5_header_without_fence :
    ∀ (hline : String) (mid rest : List String) (acc : List (String × String))
      (raw : String),
      headerMatch (pyStrip hline) = some raw →
      isValidPath (pathOf raw) = true →
      (∀ l ∈ mid, isFence l = false ∧ headerMatch (pyStrip l) = none) →
      (rest = [] ∨ ∃ h2 t raw2, rest = h2 :: t ∧ headerMatch (pyStrip h2) = some raw2) →
      scan (hline :: (mid ++ rest)) acc = scan (mid ++ rest) acc := by
  intro hline mid rest acc raw hh hv hmid hrest
  exact scan_header_nofence _ acc hh hv (findFence_none_of hmid hrest)

/-- C5 witness: header for `p.txt` followed by a plain line and another
header; the scan of the whole document equals the scan starting just after
the first header. -/
theorem c5_header_without_fence_witness :
    scan ("**p.txt**\n" :: (["plain\n"] ++ ["**q.txt**\n", "```\n", "y\n", "```\n"])) []
      = scan (["plain\n"] ++ ["**q.txt**\n", "```\n", "y\n", "```\n"]) [] := by
  exact c5_header_without_fence "**p.txt**\n" ["plain\n"]
    ["**q.txt**\n", "```\n", "y\n", "```\n"] [] "p.txt" (by decide) (by decide)
    (by decide)
    (Or.inr ⟨"**q.txt**\n", ["```\n", "y\n", "```\n"], "q.txt", rfl, by decide⟩)

/-- C6: a bolded header whose candidate path contains none of dot, slash,
backslash never produces an artifact entry — the scan just advances one line
past it — even when a fenced block follows, as in the concrete
`**Overview**` document. -/
theorem c6_invalid_header_never_artifact :
    (∀ (l : String) (ls : List String) (acc : List (String × String)) (raw : String),
        headerMatch (pyStrip l) = some raw →
        isValidPath (pathOf raw) = false →
        scan (l :: ls) acc = scan ls acc)
    ∧ extract_artifacts_from_markdown
        (DocRead.ok ["**Overview**\n", "```\n", "code\n", "```\n"]) = ([], []) := by
  refine ⟨fun l ls acc raw h hv => scan_invalid ls acc h hv, ?_⟩
  show (scan ["**Overview**\n", "```\n", "code\n", "```\n"] [], ([] : List String))
      = ([], [])
  rw [@scan_invalid "**Overview**\n" "Overview" ["```\n", "code\n", "```\n"] []
    (by decide) (by decide)]
  rw [scan_skip_all _ (by decide)]

/-- C6 witness: the generic part applied to the `**Overview**` header. -/
theorem c6_invalid_header_never_artifact_witness :
    scan ["**Overview**\n", "```\n", "code\n", "```\n"] []
      = scan ["```\n", "code\n", "```\n"] [] := by
  exact c6_invalid_header_never_artifact.1 "**Overview**\n" ["```\n", "code\n", "```\n"]
    [] "Overview" (by decide) (by decide)

/-- C9: when a valid header's fence start is found but no closing fence
exists before the end of the document, all remaining lines become the
artifact's content and the artifact is still inserted into the mapping. -/
theorem c9_unclosed_fence_keeps_artifact :
    ∀ (hline fence : String) (body : List String) (acc : List (String × String))
      (raw : String),
      headerMatch (pyStrip hline) = some raw →
      isValidPath (pathOf raw) = true →
      isFence fence = true →
      (∀ l ∈ body, isFence l = false) →
      scan (hline :: fence :: body) acc
        = dictInsert acc (replaceBS (pathOf raw)) (joinLines body) := by
  intro hline fence body acc raw hh hv hf hb
  have hff : findFence (fence :: body) = some (body, []) := by
    rw [findFence_fence _ hf, collectCode_no_fence hb]
  rw [scan_header_fence acc hh hv hff]
  exact scan_nil _

/-- C9 witness: a document ending inside an unclosed fence still yields the
artifact, with the two remaining lines as its content. -/
theorem c9_unclosed_fence_keeps_artifact_witness :
    scan ["**u.txt**\n", "```\n", "z1\n", "z2\n"] []
      = dictInsert [] (replaceBS (pathOf "u.txt")) (joinLines ["z1\n", "z2\n"]) := by
  exact c9_unclosed_fence_keeps_artifact "**u.txt**\n" "```\n" ["z1\n", "z2\n"] []
    "u.txt" (by decide) (by decide) (by decide) (by decide)

/-- C1 (counterexample): for declared file `a.txt` with no artifact match,
no inline content, and a template reference whose template file is missing,
the created file content is indeed empty, but the relative path is NOT
appended to the empty-files list: the recorded source is
`template (not found)`, so the `source == "empty"` append at
`scaffold.py` line 228 is skipped, contrary to the claim. -/
theorem c1_template_missing_counterexample :
    (create_project_file_step [] rtAllMissing "a.txt"
        { inlineContent := none, templateRef := some "t.md" } []).2 = []
    ∧ (create_project_file_step [] rtAllMissing "a.txt"
        { inlineContent := none, templateRef := some "t.md" } []).2 ≠ ["a.txt"]
    ∧ writtenContent (create_project_file_step [] rtAllMissing "a.txt"
        { inlineContent := none, templateRef := some "t.md" } []).1 = ""
    ∧ (create_project_file_step [] rtAllMissing "a.txt"
        { inlineContent := none, templateRef := some "t.md" } []).1.source
        = "template (not found)" := by
  refine ⟨rfl, by decide, rfl, rfl⟩

/-- C1 (amended): for every declared file node with no direct or suffix
artifact match, no inline content, and a template reference whose template
file is missing, the resolver leaves the content unresolved (the created
file is empty) and records source `template (not found)`; the relative path
is NOT appended to the empty-files diagnostic list, which collects only
files whose source is still the string `empty` — as happens when the
template read instead fails with an error other than file-not-found, in
which case the path IS appended. -/
theorem c1_template_missing_resolution :
    (∀ (artifacts : List (String × String)) (rt : String → TemplateRead)
      (rawRel t : String) (item : FileItem) (empty_files : List String),
      artifactLookup artifacts (replaceBS rawRel) = none →
      item.inlineContent = none →
      item.templateRef = some t →
      rt t = TemplateRead.notFound →
      create_project_file_step artifacts rt rawRel item empty_files
        = ({ content := none, source := "template (not found)" }, empty_files)
      ∧ writtenContent
          (create_project_file_step artifacts rt rawRel item empty_files).1 = "")
    ∧ (∀ (artifacts : List (String × String)) (rt : String → TemplateRead)
      (rawRel t : String) (item : FileItem) (empty_files : List String),
      artifactLookup artifacts (replaceBS rawRel) = none →
      item.inlineContent = none →
      item.templateRef = some t →
      rt t = TemplateRead.readError →
      create_project_file_step artifacts rt rawRel item empty_files
        = ({ content := none, source := "empty" },
           empty_files ++ [replaceBS rawRel])) := by
  constructor
  · intro artifacts rt rawRel t item empty_files h hc ht hr
    have h1 : resolveContent artifacts (replaceBS rawRel) item rt
        = { content := none, source := "template (not found)" } :=
      resolveContent_template_missing h hc ht hr
    rw [file_step_eq, h1]
    refine ⟨?_, rfl⟩
    rw [if_neg (by decide)]
  · intro artifacts rt rawRel t item empty_files h hc ht hr
    have h1 : resolveContent artifacts (replaceBS rawRel) item rt
        = { content := none, source := "empty" } := by
      simp only [resolveContent, h, hc, ht, hr]
    rw [file_step_eq, h1]
    rw [if_pos rfl]

/-- C1 witness: the amended statement at the concrete missing-template
input of the counterexample. -/
theorem c1_template_missing_resolution_witness :
    create_project_file_step [] rtAllMissing "b.txt"
        { inlineContent := none, templateRef := some "tpl.md" } ["prev"]
      = ({ content := none, source := "template (not found)" }, ["prev"])
    ∧ writtenContent
        (create_project_file_step [] rtAllMissing "b.txt"
          { inlineContent := none, templateRef := some "tpl.md" } ["prev"]).1 = "" := by
  exact c1_template_missing_resolution.1 [] rtAllMissing "b.txt" "tpl.md"
    { inlineContent := none, templateRef := some "tpl.md" } ["prev"]
    (by decide) rfl rfl rfl

/-- C3: the suffix-match step selects a key `K` only when the declared path
`R` ends with `K` and either `R = K` or the character before the matched
suffix is a slash (`R` ends with `/K`); concretely, `src/foo.ts` does not
match key `oo.ts` but does match key `foo.ts`. -/
theorem c3_suffix_match_boundary :
    (∀ (artifacts : List (String × String)) (r : String) (kv : String × String),
        dictLookup artifacts r = none →
        suffixMatch artifacts r = some kv →
        endsL r kv.1 = true ∧ (r = kv.1 ∨ endsL r ("/" ++ kv.1) = true))
    ∧ artifactLookup [("oo.ts", "X")] "src/foo.ts" = none
    ∧ artifactLookup [("foo.ts", "Y")] "src/foo.ts"
        = some ("Y", "artifact (matched on foo.ts)") := by
  refine ⟨fun artifacts r kv _ h => suffixMatch_sound h, by decide, by decide⟩

/-- C3 witness: the boundary property at the concrete match of `src/foo.ts`
against key `foo.ts`. -/
theorem c3_suffix_match_boundary_witness :
    endsL "src/foo.ts" "foo.ts" = true
    ∧ ("src/foo.ts" = "foo.ts" ∨ endsL "src/foo.ts" ("/" ++ "foo.ts") = true) := by
  exact c3_suffix_match_boundary.1 [("foo.ts", "Y")] "src/foo.ts" ("foo.ts", "Y")
    (by decide) (by decide)

/-- C7: separator invariant.  Every key the extractor inserts is free of
backslashes; the per-file resolver step normalizes the declared relative
path with `replaceBS` before any lookup (its resolution outcome is literally
`resolveContent` at the normalized path); and any path the step appends to
the empty-files list is that normalized, backslash-free path. -/
theorem c7_separator_invariant :
    (∀ (lines : List String) (kv : String × String),
        kv ∈ (extract_artifacts_from_markdown (DocRead.ok lines)).1 →
        noBS kv.1 = true)
    ∧ (∀ (artifacts : List (String × String)) (rt : String → TemplateRead)
        (rawRel : String) (item : FileItem) (empty_files : List String),
        (create_project_file_step artifacts rt rawRel item empty_files).1
          = resolveContent artifacts (replaceBS rawRel) item rt)
    ∧ (∀ (artifacts : List (String × String)) (rt : String → TemplateRead)
        (rawRel : String) (item : FileItem) (empty_files : List String) (x : String),
        x ∈ (create_project_file_step artifacts rt rawRel item empty_files).2 →
        x ∈ empty_files ∨ (x = replaceBS rawRel ∧ noBS x = true)) := by
  refine ⟨?_, fun _ _ _ _ _ => rfl, ?_⟩
  · intro lines kv hkv
    exact @scan_keys (fun s => noBS s = true) (fun s => replaceBS_noBS s)
      lines [] (by simp) kv hkv
  · intro artifacts rt rawRel item empty_files x hx
    rw [file_step_eq] at hx
    by_cases hs : (resolveContent artifacts (replaceBS rawRel) item rt).source = "empty"
    · rw [if_pos hs] at hx
      rcases List.mem_append.mp hx with hm | hm
      · exact Or.inl hm
      · refine Or.inr ⟨by simpa using hm, ?_⟩
        rw [show x = replaceBS rawRel from by simpa using hm]
        exact replaceBS_noBS rawRel
    · rw [if_neg hs] at hx
      exact Or.inl hx

/-- C7 witness: a backslash-separated header path is stored with forward
slashes (membership of `dir/sub/p.txt` in the extraction of a document whose
header says `dir\sub\p.txt`), hence backslash-free. -/
theorem c7_separator_invariant_witness :
    noBS ("dir/sub/p.txt" : String) = true := by
  have hm : ("dir/sub/p.txt", "z\n")
      ∈ (extract_artifacts_from_markdown
          (DocRead.ok ["**dir\\sub\\p.txt**\n", "```\n", "z\n", "```\n"])).1 := by
    show ("dir/sub/p.txt", "z\n")
        ∈ scan ["**dir\\sub\\p.txt**\n", "```\n", "z\n", "```\n"] []
    rw [@scan_header_fence "**dir\\sub\\p.txt**\n" "dir\\sub\\p.txt"
      ["```\n", "z\n", "```\n"] ["z\n"] [] [] (by decide) (by decide)
      (show findFence ["```\n", "z\n", "```\n"] = some (["z\n"], []) by decide)]
    rw [scan_nil]
    decide
  exact c7_separator_invariant.1 _ _ hm

/-- C8: when the source document cannot be opened or read (missing file or
any other read error), the extractor returns the empty mapping together
with a (non-fatal) diagnostic instead of raising. -/
theorem c8_unreadable_document_nonfatal :
    ∀ d : DocRead, (d = DocRead.notFound ∨ d = DocRead.readError) →
      (extract_artifacts_from_markdown d).1 = []
      ∧ (extract_artifacts_from_markdown d).2 ≠ [] := by
  intro d h
  rcases h with rfl | rfl
  · exact ⟨rfl, by decide⟩
  · exact ⟨rfl, by decide⟩

/-- C8 witness: the missing-document case. -/
theorem c8_unreadable_document_nonfatal_witness :
    (extract_artifacts_from_markdown DocRead.notFound).1 = []
    ∧ (extract_artifacts_from_markdown DocRead.notFound).2 ≠ [] := by
  exact c8_unreadable_document_nonfatal DocRead.notFound (Or.inl rfl)

/-- C10: a declared file whose (normalized) path matches an artifact with
empty content resolves to that empty content with an artifact source: the
inline-content, template, and empty fallbacks are not consulted and the path
is not appended to the empty-files list. -/
theorem c10_empty_artifact_content_used :
    ∀ (artifacts : List (String × String)) (rt : String → TemplateRead)
      (rawRel : String) (item : FileItem) (empty_files : List String) (src : String),
      artifactLookup artifacts (replaceBS rawRel) = some ("", src) →
      (create_project_file_step artifacts rt rawRel item empty_files).1
          = { content := some "", source := src }
      ∧ (create_project_file_step artifacts rt rawRel item empty_files).2
          = empty_files := by
  intro artifacts rt rawRel item empty_files src h
  have h1 : resolveContent artifacts (replaceBS rawRel) item rt
      = { content := some "", source := src } := resolveContent_artifact h
  have h2 : src ≠ "empty" := artifactLookup_source_ne h
  rw [file_step_eq, h1]
  exact ⟨rfl, by rw [if_neg h2]⟩

/-- C10 witness: a suffix-matched artifact with empty content wins over
declared inline content and a readable template, and nothing is appended to
the empty-files list. -/
theorem c10_empty_artifact_content_used_witness :
    (create_project_file_step [("b/a.txt", "")] rtAllFound "x\\b\\a.txt"
        { inlineContent := some "inline", templateRef := some "t.md" } ["prev"]).1
      = { content := some "", source := "artifact (matched on b/a.txt)" }
    ∧ (create_project_file_step [("b/a.txt", "")] rtAllFound "x\\b\\a.txt"
        { inlineContent := some "inline", templateRef := some "t.md" } ["prev"]).2
      = ["prev"] := by
  exact c10_empty_artifact_content_used [("b/a.txt", "")] rtAllFound "x\\b\\a.txt"
    { inlineContent := some "inline", templateRef := some "t.md" } ["prev"]
    "artifact (matched on b/a.txt)" (by decide)
